import Mathlib

/-!
Verification of the cascading-backport policy implemented by
`.github/scripts/auto-backport.py`.

The script is a stateless orchestration layer: every run reads pull-request
metadata, decides a dispatch strategy (waterfall or parallel), materializes
backport branches by cherry-picking commits, and opens pull requests.  The
development below is a shallow embedding of that logic:

* pure string manipulation (label parsing, version sorting, the regular
  expressions used on titles and bodies) is translated directly into
  executable Lean functions on `List Char` / `String`;
* every external call (GitHub API, git subprocess) is an oracle recorded in a
  `GitEnv`, and the observable side effects of a run (created PRs, label
  additions, comments, assignees, branch materializations) are collected in an
  `Effects` trace, in program order.

Numeric version components are modeled as exact naturals; the Python code
converts digit strings with `float`, which agrees with `Nat` on all
realistically sized version numbers.
-/

namespace AutoBackport

/-! ## String helpers (models of the Python string operations used) -/

/-- Model of `label.replace('backport/', '')`: removes every (non-overlapping,
left-to-right) occurrence of the substring `backport/`. -/
def stripBackportChars : List Char → List Char
  | [] => []
  | 'b' :: 'a' :: 'c' :: 'k' :: 'p' :: 'o' :: 'r' :: 't' :: '/' :: rest =>
      stripBackportChars rest
  | c :: cs => c :: stripBackportChars cs

/-- `stripB label` is the `version` string the script derives from a label,
i.e. `label.replace('backport/', '')`. -/
def stripB (s : String) : String := ⟨stripBackportChars s.toList⟩

/-- Model of Python `version.split('.')`. -/
def splitOnDot : List Char → List (List Char)
  | [] => [[]]
  | '.' :: cs => [] :: splitOnDot cs
  | c :: cs =>
      match splitOnDot cs with
      | [] => [[c]]
      | p :: ps => (c :: p) :: ps

/-- Numeric value of a digit string. -/
def digitsVal (cs : List Char) : Nat :=
  cs.foldl (fun a c => a * 10 + (c.toNat - 48)) 0

/-- Model of `float(part)` on a version component: succeeds exactly on
non-empty digit strings (the only shapes version labels produce), failing like
Python `ValueError` otherwise. -/
def parseNumPart (cs : List Char) : Option Nat :=
  if cs.isEmpty then none
  else if cs.all Char.isDigit then some (digitsVal cs) else none

/-- Model of `str.startswith`. -/
def strStarts (p s : String) : Bool := List.isPrefixOf p.toList s.toList

/-- Model of `not diff.strip()`: true iff the string is empty or all
whitespace. -/
def trimIsEmpty (s : String) : Bool := s.toList.all Char.isWhitespace

/-! ## Version label parsing and sorting (`sort_versions`, lines 270-287) -/

/-- The sort key computed by `version_key` inside `sort_versions`:
strip `backport/`, split on `.`, parse the first two components numerically;
any parse failure yields the sentinel `(0, 0)`. -/
def version_key (label : String) : Nat × Nat :=
  match splitOnDot (stripBackportChars label.toList) with
  | [p] =>
      match parseNumPart p with
      | some a => (a, 0)
      | none => (0, 0)
  | p :: q :: _ =>
      match parseNumPart p, parseNumPart q with
      | some a, some b => (a, b)
      | _, _ => (0, 0)
  | [] => (0, 0)

/-- `True` iff the label suffix parses numerically, i.e. the `try` in
`version_key` succeeds (no `ValueError` fallback to `(0, 0)`). -/
def numericSuffix (label : String) : Bool :=
  match splitOnDot (stripBackportChars label.toList) with
  | [p] => (parseNumPart p).isSome
  | p :: q :: _ => (parseNumPart p).isSome && (parseNumPart q).isSome
  | [] => false

/-- Lexicographic strict comparison of version keys, as Python compares the
tuples returned by `version_key`. -/
def keyLt (x y : Nat × Nat) : Bool :=
  decide (x.1 < y.1) || (decide (x.1 = y.1) && decide (x.2 < y.2))

/-- One step of a stable descending insertion: `x` is placed before the first
element whose key is not greater than the key of `x`.  Elements with equal
keys that were earlier in the input stay earlier, matching the stability
guarantee of Python `sorted(..., reverse=True)`. -/
def insertDesc (x : String) : List String → List String
  | [] => [x]
  | y :: ys =>
      if keyLt (version_key x) (version_key y) then y :: insertDesc x ys
      else x :: y :: ys

/-- Model of `sort_versions`: `sorted(backport_labels, key=version_key,
reverse=True)`, a stable descending sort by `version_key`. -/
def sort_versions (backport_labels : List String) : List String :=
  backport_labels.foldr insertDesc []

/-! ## Label pattern and pull-request data -/

/-- Model of `re.compile(r'backport/\d+\.\d+$').match`: the whole label is
`backport/` followed by digits, a dot, and digits. -/
def isBackportLabel (s : String) : Bool :=
  if List.isPrefixOf "backport/".toList s.toList then
    match splitOnDot (s.toList.drop 9) with
    | [a, b] =>
        (!a.isEmpty && a.all Char.isDigit) && (!b.isEmpty && b.all Char.isDigit)
    | _ => false
  else false

/-- The pull-request metadata the script reads from the GitHub API. -/
structure PRData where
  number : Nat
  title : String
  body : String
  author : String
  labels : List String
  state : String
  merged : Bool
  mergeCommitSha : Option String
  commitShas : List String
deriving DecidableEq

/-- The backport labels of a PR, as filtered by `backport_label_pattern`. -/
def backportLabelsOf (pr : PRData) : List String :=
  pr.labels.filter isBackportLabel

/-! ## Cascade resumption scanner (`find_merged_prs_with_labels`, lines 42-75) -/

/-- The loop body of `find_merged_prs_with_labels`.  `remaining` is
`20 - count`: the loop breaks when 20 merged PRs have been examined; a merged
PR that carries backport labels and whose title starts with `[Backport` is
returned immediately as a singleton. -/
def findMergedLoop : List PRData → Nat → List (PRData × List String)
  | [], _ => []
  | pr :: rest, remaining =>
      if remaining = 0 then []
      else if pr.state == "closed" && pr.merged then
        if !(backportLabelsOf pr).isEmpty && strStarts "[Backport" pr.title then
          [(pr, backportLabelsOf pr)]
        else findMergedLoop rest (remaining - 1)
      else findMergedLoop rest remaining

/-- Model of `find_merged_prs_with_labels`: the input list is
`repo.get_pulls(state='closed', sort='updated', direction='desc')` in API
order, and the lookback bound is hard-coded to 20. -/
def find_merged_prs_with_labels (prs : List PRData) : List (PRData × List String) :=
  findMergedLoop prs 20

/-- Specification-side view of the scanner window: the first `n` pull requests
of the listing that are closed and merged. -/
def mergedWindow (prs : List PRData) (n : Nat) : List PRData :=
  (prs.filter (fun pr => pr.state == "closed" && pr.merged)).take n

/-- Specification-side view of a resumable PR: it still carries at least one
backport label and its title starts with the backport naming convention. -/
def resumable (pr : PRData) : Bool :=
  !(backportLabelsOf pr).isEmpty && strStarts "[Backport" pr.title

/-! ## Regular-expression searches on titles and bodies -/

/-- Attempt of `[\d\.]+\]` at a fixed position (the remainder after
`[Backport ` has matched): the maximal run of digits and dots must be
non-empty and be followed immediately by `]`. -/
def versionRunAt (cs : List Char) : Option (List Char) :=
  let run := cs.takeWhile (fun c => c.isDigit || c == '.')
  if !run.isEmpty && (cs.drop run.length).head? == some ']' then some run
  else none

/-- Model of `re.search(r'\[Backport ([\d\.]+)\]', title)`: scan left to
right for the first position where the pattern matches, returning the
captured version characters. -/
def searchBackportVersion : List Char → Option (List Char)
  | [] => none
  | c :: cs =>
      if List.isPrefixOf "[Backport ".toList (c :: cs) then
        match versionRunAt ((c :: cs).drop 10) with
        | some run => some run
        | none => searchBackportVersion cs
      else searchBackportVersion cs

/-- Model of `re.search(r'Parent PR: #(\d+)', body)`: scan for the first
occurrence of `Parent PR: #` followed by at least one digit, returning the
numeric value of the maximal digit run. -/
def searchParentNumber : List Char → Option Nat
  | [] => none
  | c :: cs =>
      if List.isPrefixOf "Parent PR: #".toList (c :: cs) then
        let run := ((c :: cs).drop 12).takeWhile Char.isDigit
        if run.isEmpty then searchParentNumber cs else some (digitsVal run)
      else searchParentNumber cs

/-! ## Git oracles and the effect trace -/

/-- Outcome of `git cherry-pick --continue` after a conflict. -/
inductive ContOutcome
  | ok
  | nothingToCommit
  | otherError
deriving DecidableEq

/-- Outcome of one `git cherry-pick` invocation. -/
inductive PickOutcome
  | ok
  | conflict (cont : ContOutcome)
deriving DecidableEq

/-- Result of replaying the commit list inside `setup_git_repo`:
which commits ended up committed on the branch, which commits the loop
reached at all, and whether any conflict occurred. -/
structure PickRun where
  applied : List String
  attempted : List String
  conflicted : Bool
deriving DecidableEq

/-- The cherry-pick loop of `setup_git_repo` (lines 313-340), driven by an
oracle listing the outcome of each successive `git cherry-pick` (outcomes
beyond the list default to success):
a clean pick applies the commit; a conflict stages everything and tries
`--continue` (applied on success, skipped on "nothing to commit"); any other
`--continue` failure aborts the cherry-pick and breaks out of the loop. -/
def applyPicks : List String → List PickOutcome → PickRun
  | [], _ => ⟨[], [], false⟩
  | c :: cs, outs =>
      match outs.headD PickOutcome.ok with
      | PickOutcome.ok =>
          let r := applyPicks cs outs.tail
          ⟨c :: r.applied, c :: r.attempted, r.conflicted⟩
      | PickOutcome.conflict ContOutcome.ok =>
          let r := applyPicks cs outs.tail
          ⟨c :: r.applied, c :: r.attempted, true⟩
      | PickOutcome.conflict ContOutcome.nothingToCommit =>
          let r := applyPicks cs outs.tail
          ⟨r.applied, c :: r.attempted, true⟩
      | PickOutcome.conflict ContOutcome.otherError =>
          ⟨[], [c], true⟩

/-- Oracles for one run: every external git / GitHub call made while
materializing a backport for a given target version. -/
structure GitEnv where
  pickResults : String → List PickOutcome
  cloneFails : String → Bool
  diffResult : String → Option String
  createResult : String → Option Nat

/-- Result of `setup_git_repo` (lines 290-348). -/
structure SetupResult where
  applied : List String
  attempted : List String
  isDraft : Bool
  pushed : Bool
deriving DecidableEq

/-- Model of `setup_git_repo`: clone the target branch (a failing clone is the
outer `GitCommandError`, returning draft without a push), cherry-pick the
commits, then force-push the branch to the fork. -/
def setup_git_repo (env : GitEnv) (version : String) (commits : List String) :
    SetupResult :=
  if env.cloneFails version then
    { applied := [], attempted := [], isDraft := true, pushed := false }
  else
    let r := applyPicks commits (env.pickResults version)
    { applied := r.applied, attempted := r.attempted, isDraft := r.conflicted,
      pushed := true }

/-- The observable side effects of a run, in program order: pull requests
created, labels added (PR number, label), issue comments (PR number, text),
assignees added, and branch materializations (target version, commit list). -/
structure Effects where
  createdPRs : List Nat
  labelsAdded : List (Nat × String)
  comments : List (Nat × String)
  assignees : List (Nat × String)
  materializations : List (String × List String)
deriving DecidableEq

/-- No effects. -/
def Effects.empty : Effects := ⟨[], [], [], [], []⟩

/-- Sequential composition of effect traces. -/
def Effects.app (ea eb : Effects) : Effects :=
  ⟨ea.createdPRs ++ eb.createdPRs,
   ea.labelsAdded ++ eb.labelsAdded,
   ea.comments ++ eb.comments,
   ea.assignees ++ eb.assignees,
   ea.materializations ++ eb.materializations⟩

/-! ## PR publication (`create_pull_request` and `create_backport_branch`) -/

/-- The conflict comment posted by `create_pull_request` when the PR is a
draft (lines 108-110). -/
def conflictComment (login : String) : String :=
  "@" ++ login ++
    " - This PR has conflicts, therefore it was moved to `draft` \n" ++
    "Please resolve them and mark this PR as ready for review"

/-- The pending-versions comment posted in the waterfall branch of `backport`
(lines 204-210). -/
def waterfallComment (login : String) (remaining : List String) : String :=
  "@" ++ login ++
    " - This PR needs to be backported to the following versions after merging:\n" ++
    String.join (remaining.map (fun label => "- " ++ stripB label ++ "\n\n")) ++
    "The GitHub workflow will automatically continue the backport process to these versions after this PR is merged."

/-- Effect of one `create_backport_branch` call before any PR is opened:
the branch for `version` was materialized from `commits`. -/
def effMatz (version : String) (commits : List String) : Effects :=
  { Effects.empty with materializations := [(version, commits)] }

/-- Effects of a successful `create_pull_request` (lines 91-117): the PR is
created and the original author assigned; when it is a draft it additionally
receives the `conflicts` label and the conflict comment. -/
def createdEffects (num : Nat) (login : String) (draft : Bool) : Effects :=
  { createdPRs := [num]
    labelsAdded := if draft then [(num, "conflicts")] else []
    comments := if draft then [(num, conflictComment login)] else []
    assignees := [(num, login)]
    materializations := [] }

/-- The empty-diff guard of `create_backport_branch` (lines 385-404): when the
diff command succeeds and reports no changed files, PR creation is skipped;
when the diff command itself fails the code continues anyway. -/
def diffSkips (env : GitEnv) (version : String) : Bool :=
  match env.diffResult version with
  | some d => trimIsEmpty d
  | none => false

/-- Model of `create_backport_branch` (lines 351-425): materialize the branch
via `setup_git_repo`, skip PR creation on an empty diff, then attempt
`create_pull_request` (the creation oracle returns `none` for a duplicate PR
or any other `GithubException`). -/
def create_backport_branch (env : GitEnv) (pr : PRData) (version : String)
    (commits : List String) : Option Nat × Effects :=
  if diffSkips env version then (none, effMatz version commits)
  else
    match env.createResult version with
    | none => (none, effMatz version commits)
    | some num =>
        (some num,
          (effMatz version commits).app
            (createdEffects num pr.author
              (setup_git_repo env version commits).isDraft))

/-! ## The unified `backport` dispatcher (lines 150-251) -/

/-- Effects added in the waterfall branch after a successful creation
(lines 194-216): each remaining label is attached to the new PR and one
pending-versions comment is posted — but only when remaining labels exist. -/
def waterfallExtras (num : Nat) (login : String) (remaining : List String) :
    Effects :=
  if remaining.isEmpty then Effects.empty
  else
    { createdPRs := []
      labelsAdded := remaining.map (fun label => (num, label))
      comments := [(num, waterfallComment login remaining)]
      assignees := []
      materializations := [] }

/-- The parallel strategy (lines 223-249): every label is processed
independently, each from the same commit list; failures for one version do
not affect the others. -/
def backportParallel (env : GitEnv) (pr : PRData) (commits : List String) :
    List String → List Nat × Effects
  | [] => ([], Effects.empty)
  | label :: rest =>
      let r := create_backport_branch env pr (stripB label) commits
      let tailRes := backportParallel env pr commits rest
      match r.1 with
      | some n => (n :: tailRes.1, r.2.app tailRes.2)
      | none => (tailRes.1, r.2.app tailRes.2)

/-- Model of the unified `backport` function: on an empty label list nothing
happens; waterfall processes only the first (highest) label and attaches the
remaining ones to the created PR; parallel processes every label. -/
def backport (env : GitEnv) (pr : PRData) (sortedLabels : List String)
    (commits : List String) (useWaterfall : Bool) : List Nat × Effects :=
  match sortedLabels with
  | [] => ([], Effects.empty)
  | cur :: remaining =>
      if useWaterfall then
        match create_backport_branch env pr (stripB cur) commits with
        | (some num, eff) => ([num], eff.app (waterfallExtras num pr.author remaining))
        | (none, eff) => ([], eff)
      else backportParallel env pr commits (cur :: remaining)

/-! ## Strategy selection (`main`, lines 443-515 and 551-559) -/

/-- The strategy decision on the direct dispatch path (line 559):
`use_waterfall = not (args.parallel or (has_backport_all and not
args.waterfall))`, where `has_backport_all` checks the labels of the
trigger PR. -/
def mainUseWaterfall (parallelFlag waterfallFlag : Bool) (labels : List String) :
    Bool :=
  !(parallelFlag || (labels.contains "backport_all" && !waterfallFlag))

/-- The strategy decision on the cascade-resumption path (line 498):
`use_waterfall = not has_backport_all`, computed from the labels of the
originating PR only — the force flags are not consulted here. -/
def resumeUseWaterfall (originalLabels : List String) : Bool :=
  !(originalLabels.contains "backport_all")

/-- The selection rule exactly as the specification words it: force-parallel
wins; else force-waterfall wins; else `backport_all` selects parallel; else
waterfall. -/
def specUseWaterfall (forceParallel forceWaterfall hasBackportAll : Bool) : Bool :=
  if forceParallel then false
  else if forceWaterfall then true
  else !hasBackportAll

/-! ## The cascade-resumption run (`main`, lines 443-515) -/

/-- The commit set used when resuming from a merged backport PR (lines
465-472): the merge commit of that PR, or its own commit list when no merge
commit exists. -/
def resumeCommits (pr : PRData) : List String :=
  match pr.mergeCommitSha with
  | some sha => [sha]
  | none => pr.commitShas

/-- Processing of one merged backport PR found by the scanner: extract the
processed version from the title, sort the remaining labels, take the merge
commit (or, failing that, the PR commits), re-associate the original PR from
the `Parent PR: #n` back-reference (falling back to the backport PR itself
when the reference is missing or fetching fails, in which case
`has_backport_all` stays false), and dispatch `backport`. -/
def processMergedBackportPR (env : GitEnv) (getPull : Nat → Option PRData)
    (pr : PRData) (bls : List String) : Effects :=
  if pr.merged then
    match searchBackportVersion pr.title.toList with
    | none => Effects.empty
    | some _ =>
        match searchParentNumber pr.body.toList with
        | some n =>
            match getPull n with
            | some op =>
                (backport env op (sort_versions bls) (resumeCommits pr)
                  (resumeUseWaterfall op.labels)).2
            | none =>
                (backport env pr (sort_versions bls) (resumeCommits pr) true).2
        | none => (backport env pr (sort_versions bls) (resumeCommits pr) true).2
  else Effects.empty

/-- The loop over the scanner result (at most one element). -/
def processAll (env : GitEnv) (getPull : Nat → Option PRData) :
    List (PRData × List String) → Effects
  | [] => Effects.empty
  | pb :: rest =>
      (processMergedBackportPR env getPull pb.1 pb.2).app
        (processAll env getPull rest)

/-- The whole resumption block of `main`: scan the recently closed PRs and
process what the scanner returns.  `closedPRs` is the GitHub listing, and
`getPull` is the `repo.get_pull` oracle used to fetch the original PR. -/
def resumeRun (env : GitEnv) (closedPRs : List PRData)
    (getPull : Nat → Option PRData) : Effects :=
  processAll env getPull (find_merged_prs_with_labels closedPRs)

/-! ## Concrete scenarios used as counterexamples and witnesses -/

/-- A generic original pull request (no `backport_all` label). -/
def prPlain : PRData :=
  { number := 42, title := "Fix thing", body := "original body"
    author := "alice", labels := ["promoted-to-master"]
    state := "closed", merged := true
    mergeCommitSha := some "cafe", commitShas := [] }

/-- An original pull request carrying the `backport_all` label. -/
def prAll : PRData :=
  { number := 42, title := "Fix thing", body := "original body"
    author := "alice", labels := ["backport_all", "promoted-to-master"]
    state := "closed", merged := true
    mergeCommitSha := some "cafe", commitShas := [] }

/-- A merged backport PR as the scanner finds it: backport naming convention
in the title, a parent back-reference in the body, and two remaining
backport labels. -/
def prBackport : PRData :=
  { number := 77, title := "[Backport 2025.3] Fix thing"
    body := "original body\n\nParent PR: #42"
    author := "alice"
    labels := ["backport/2025.2", "backport/2025.1"]
    state := "closed", merged := true
    mergeCommitSha := some "deadbeef", commitShas := [] }

/-- Environment for the C1 scenario: clean cherry-picks, a non-empty diff,
and PR creation succeeding only for version 2025.2 (the next waterfall
step). -/
def envC1 : GitEnv :=
  { pickResults := fun _ => []
    cloneFails := fun _ => false
    diffResult := fun _ => some "file.txt"
    createResult := fun v => if v == "2025.2" then some 100 else none }

/-- `repo.get_pull` oracle returning the plain original PR for number 42. -/
def getPullPlain : Nat → Option PRData :=
  fun n => if n = 42 then some prPlain else none

/-- `repo.get_pull` oracle returning the `backport_all` original PR for
number 42. -/
def getPullAll : Nat → Option PRData :=
  fun n => if n = 42 then some prAll else none

/-- Environment for the C2 scenario: creation succeeds for both remaining
versions, so a parallel dispatch creates two PRs. -/
def envC2 : GitEnv :=
  { pickResults := fun _ => []
    cloneFails := fun _ => false
    diffResult := fun _ => some "file.txt"
    createResult := fun v =>
      if v == "2025.2" then some 201
      else if v == "2025.1" then some 202 else none }

/-- Environment for the C3/C9 scenarios: creation succeeds only for version
2025.3. -/
def envC3 : GitEnv :=
  { pickResults := fun _ => []
    cloneFails := fun _ => false
    diffResult := fun _ => some "file.txt"
    createResult := fun v => if v == "2025.3" then some 300 else none }

/-- Environment for the C4 scenario: creation succeeds for all three
versions. -/
def envC4 : GitEnv :=
  { pickResults := fun _ => []
    cloneFails := fun _ => false
    diffResult := fun _ => some "file.txt"
    createResult := fun v =>
      if v == "2025.3" then some 401
      else if v == "2025.2" then some 402
      else if v == "2025.1" then some 403 else none }

/-- Environment for the C6 counterexample: the first cherry-pick conflicts
and its `--continue` fails with an error other than "nothing to commit". -/
def envC6 : GitEnv :=
  { pickResults := fun _ =>
      [PickOutcome.conflict ContOutcome.otherError, PickOutcome.ok]
    cloneFails := fun _ => false
    diffResult := fun _ => some "file.txt"
    createResult := fun _ => some 7 }

/-- Environment for the C6 witness: one conflicting commit whose
`--continue` succeeds. -/
def envC6w : GitEnv :=
  { pickResults := fun _ => [PickOutcome.conflict ContOutcome.ok]
    cloneFails := fun _ => false
    diffResult := fun _ => some "file.txt"
    createResult := fun _ => some 600 }

/-- Environment for the C7 witness: the diff command reports only
whitespace, i.e. no changes. -/
def envC7 : GitEnv :=
  { pickResults := fun _ => []
    cloneFails := fun _ => false
    diffResult := fun _ => some "  \n"
    createResult := fun _ => some 1 }

/-- Environment for the C9 witness: PR creation always fails. -/
def envC9 : GitEnv :=
  { pickResults := fun _ => []
    cloneFails := fun _ => false
    diffResult := fun _ => some "file.txt"
    createResult := fun _ => none }

/-- Environment for the C10 witness: the second cherry-pick conflicts and
aborts. -/
def envC10 : GitEnv :=
  { pickResults := fun _ =>
      [PickOutcome.ok, PickOutcome.conflict ContOutcome.otherError]
    cloneFails := fun _ => false
    diffResult := fun _ => some "file.txt"
    createResult := fun _ => some 700 }

/-! ## Lemmas about the version sorter -/

lemma keyLt_asymm {a b : Nat × Nat} (h : keyLt a b = true) : keyLt b a = false := by
  simp only [keyLt, Bool.or_eq_true, Bool.and_eq_true, decide_eq_true_eq] at h
  simp only [keyLt, Bool.or_eq_false_iff, Bool.and_eq_false_iff,
    decide_eq_false_iff_not]
  omega

lemma keyLt_negtrans {a b c : Nat × Nat} (h1 : keyLt a b = false)
    (h2 : keyLt b c = false) : keyLt a c = false := by
  simp only [keyLt, Bool.or_eq_false_iff, Bool.and_eq_false_iff,
    decide_eq_false_iff_not] at h1 h2 ⊢
  omega

lemma insertDesc_perm (x : String) (l : List String) :
    (insertDesc x l).Perm (x :: l) := by
  induction l with
  | nil => simp [insertDesc]
  | cons y ys ih =>
    simp only [insertDesc]
    split
    · exact (ih.cons y).trans (List.Perm.swap x y ys)
    · exact List.Perm.refl _

lemma sort_versions_perm (l : List String) : (sort_versions l).Perm l := by
  induction l with
  | nil => simp [sort_versions]
  | cons a l ih =>
    have : sort_versions (a :: l) = insertDesc a (sort_versions l) := rfl
    rw [this]
    exact (insertDesc_perm a (sort_versions l)).trans (ih.cons a)

lemma pairwise_insertDesc (x : String) (l : List String)
    (h : l.Pairwise (fun a b => keyLt (version_key a) (version_key b) = false)) :
    (insertDesc x l).Pairwise
      (fun a b => keyLt (version_key a) (version_key b) = false) := by
  induction l with
  | nil => simp [insertDesc]
  | cons y ys ih =>
    rcases List.pairwise_cons.mp h with ⟨hy, hys⟩
    simp only [insertDesc]
    split
    case isTrue hlt =>
      refine List.pairwise_cons.mpr ⟨?_, ih hys⟩
      intro z hz
      rcases List.mem_cons.mp ((insertDesc_perm x ys).mem_iff.mp hz) with rfl | hz2
      · exact keyLt_asymm hlt
      · exact hy z hz2
    case isFalse hlt =>
      have hxy : keyLt (version_key x) (version_key y) = false :=
        Bool.not_eq_true _ ▸ hlt
      refine List.pairwise_cons.mpr ⟨?_, h⟩
      intro z hz
      rcases List.mem_cons.mp hz with rfl | hz2
      · exact hxy
      · exact keyLt_negtrans hxy (hy z hz2)

lemma sort_versions_pairwise (l : List String) :
    (sort_versions l).Pairwise
      (fun a b => keyLt (version_key a) (version_key b) = false) := by
  induction l with
  | nil => simp [sort_versions]
  | cons a l ih => exact pairwise_insertDesc a (sort_versions l) ih

/-! ## Lemmas about the resumption scanner -/

lemma findMergedLoop_eq (prs : List PRData) (n : Nat) :
    findMergedLoop prs n =
      (match (mergedWindow prs n).find? resumable with
       | some pr => [(pr, backportLabelsOf pr)]
       | none => []) := by
  induction prs generalizing n with
  | nil => simp [findMergedLoop, mergedWindow]
  | cons pr rest ih =>
    cases n with
    | zero => simp [findMergedLoop, mergedWindow]
    | succ m =>
      by_cases hm : (pr.state == "closed" && pr.merged) = true
      · have hwin : mergedWindow (pr :: rest) (m + 1) = pr :: mergedWindow rest m := by
          simp [mergedWindow, List.filter_cons, hm]
        by_cases hr : resumable pr = true
        · have hr2 :
              (!(backportLabelsOf pr).isEmpty && strStarts "[Backport" pr.title)
                = true := hr
          simp [findMergedLoop, hm, hr2, hwin, List.find?_cons_of_pos _ hr]
        · have hr2 :
              (!(backportLabelsOf pr).isEmpty && strStarts "[Backport" pr.title)
                = false := Bool.not_eq_true _ ▸ hr
          have hfind := List.find?_cons_of_neg
            ((mergedWindow rest m)) (p := resumable) (a := pr) (by simp [hr])
          simp only [findMergedLoop, hm, hr2, hwin, hfind, if_true, if_false,
            Bool.false_eq_true, Nat.succ_ne_zero, if_neg, ite_false]
          simpa using ih m
      · have hm2 := Bool.not_eq_true _ ▸ hm
        have hwin : mergedWindow (pr :: rest) (m + 1) = mergedWindow rest (m + 1) := by
          simp [mergedWindow, List.filter_cons, hm2]
        simp [findMergedLoop, hm2, hwin, ih (m + 1)]

/-- Claim C8: without an explicit trigger PR, the scanner examines at most the
first 20 closed-and-merged pull requests of the listing and returns at most
one of them: the first (most recently updated) one in that window whose title
starts with `[Backport` and which still carries a backport label, together
with those labels; if no such PR is in the window, the result is empty. -/
theorem C8_theorem (prs : List PRData) :
    find_merged_prs_with_labels prs =
      (match (mergedWindow prs 20).find? resumable with
       | some pr => [(pr, backportLabelsOf pr)]
       | none => [])
    ∧ (find_merged_prs_with_labels prs).length ≤ 1 := by
  refine ⟨findMergedLoop_eq prs 20, ?_⟩
  rw [find_merged_prs_with_labels, findMergedLoop_eq prs 20]
  cases (mergedWindow prs 20).find? resumable <;> simp

/-- Claim C5 (counterexample): `backport/x.y` has a non-numeric suffix and
`backport/0.0` is numerically well-formed, yet the sorter keeps the
non-numeric label in front — its sentinel key `(0, 0)` ties with the genuine
key of `0.0`, so non-numeric labels are not always placed after numerically
well-formed ones, and the descending order is not strict. -/
theorem C5_counterexample :
    sort_versions ["backport/x.y", "backport/0.0"]
        = ["backport/x.y", "backport/0.0"]
    ∧ numericSuffix "backport/0.0" = true
    ∧ numericSuffix "backport/x.y" = false := by decide

/-- Claim C5 (amended): the sorter returns a permutation of its input that is
weakly descending by `(major, minor)` key, where a label whose suffix does
not parse numerically gets the sentinel key `(0, 0)` instead of raising an
error; the example of the claim sorts exactly as stated. -/
theorem C5_theorem (ls : List String) :
    (sort_versions ls).Perm ls
    ∧ (sort_versions ls).Pairwise
        (fun a b => keyLt (version_key a) (version_key b) = false)
    ∧ sort_versions
        ["backport/2025.1", "backport/2025.3", "backport/x.y", "backport/2025.2"]
      = ["backport/2025.3", "backport/2025.2", "backport/2025.1", "backport/x.y"] :=
  ⟨sort_versions_perm ls, sort_versions_pairwise ls, by decide⟩

/-! ## Lemmas about branch creation and the dispatcher -/

@[simp] lemma app_createdPRs (ea eb : Effects) :
    (ea.app eb).createdPRs = ea.createdPRs ++ eb.createdPRs := rfl

@[simp] lemma app_labelsAdded (ea eb : Effects) :
    (ea.app eb).labelsAdded = ea.labelsAdded ++ eb.labelsAdded := rfl

@[simp] lemma app_comments (ea eb : Effects) :
    (ea.app eb).comments = ea.comments ++ eb.comments := rfl

@[simp] lemma app_assignees (ea eb : Effects) :
    (ea.app eb).assignees = ea.assignees ++ eb.assignees := rfl

@[simp] lemma app_materializations (ea eb : Effects) :
    (ea.app eb).materializations = ea.materializations ++ eb.materializations := rfl

lemma cbb_success (env : GitEnv) (pr : PRData) (version : String)
    (commits : List String) (num : Nat)
    (h1 : diffSkips env version = false)
    (h2 : env.createResult version = some num) :
    create_backport_branch env pr version commits =
      (some num,
        (effMatz version commits).app
          (createdEffects num pr.author
            (setup_git_repo env version commits).isDraft)) := by
  simp [create_backport_branch, h1, h2]

lemma cbb_fst_none_eff (env : GitEnv) (pr : PRData) (version : String)
    (commits : List String)
    (h : (create_backport_branch env pr version commits).1 = none) :
    create_backport_branch env pr version commits = (none, effMatz version commits) := by
  by_cases hd : diffSkips env version = true
  · simp [create_backport_branch, hd]
  · have hd2 := Bool.not_eq_true _ ▸ hd
    cases hc : env.createResult version with
    | none => simp [create_backport_branch, hd2, hc]
    | some num =>
        rw [cbb_success env pr version commits num hd2 hc] at h
        simp at h

lemma cbb_matz (env : GitEnv) (pr : PRData) (version : String)
    (commits : List String) :
    (create_backport_branch env pr version commits).2.materializations
      = [(version, commits)] := by
  by_cases hd : diffSkips env version = true
  · simp [create_backport_branch, hd, effMatz, Effects.empty]
  · have hd2 := Bool.not_eq_true _ ▸ hd
    cases hc : env.createResult version with
    | none => simp [create_backport_branch, hd2, hc, effMatz, Effects.empty]
    | some num =>
        simp [create_backport_branch, hd2, hc, effMatz, createdEffects,
          Effects.empty]

lemma cbb_some_mem (env : GitEnv) (pr : PRData) (version : String)
    (commits : List String) (num : Nat)
    (h : (create_backport_branch env pr version commits).1 = some num) :
    num ∈ (create_backport_branch env pr version commits).2.createdPRs := by
  by_cases hd : diffSkips env version = true
  · simp [create_backport_branch, hd] at h
  · have hd2 := Bool.not_eq_true _ ▸ hd
    cases hc : env.createResult version with
    | none => simp [create_backport_branch, hd2, hc] at h
    | some m =>
        rw [cbb_success env pr version commits m hd2 hc] at h ⊢
        simp at h
        simp [h, effMatz, createdEffects, Effects.empty]

/-- Claim C7: when the diff command succeeds and reports an empty diff (only
whitespace output), `create_backport_branch` opens no pull request at all, so
re-running materialization against an unchanged target produces no PR. -/
theorem C7_theorem (env : GitEnv) (pr : PRData) (version : String)
    (commits : List String) (d : String)
    (hd : env.diffResult version = some d)
    (he : trimIsEmpty d = true) :
    (create_backport_branch env pr version commits).1 = none
    ∧ (create_backport_branch env pr version commits).2.createdPRs = [] := by
  have hs : diffSkips env version = true := by simp [diffSkips, hd, he]
  simp [create_backport_branch, hs, effMatz, Effects.empty]

/-- Claim C3: under the waterfall strategy on a non-empty sorted label list,
when the single creation step succeeds without conflicts, exactly one
backport PR is created, exactly one branch is materialized — for the
highest-ranked (first) label — and exactly the remaining lower labels are
attached to the created PR. -/
theorem C3_theorem (env : GitEnv) (pr : PRData) (cur : String)
    (remaining : List String) (commits : List String) (num : Nat)
    (hdraft : (setup_git_repo env (stripB cur) commits).isDraft = false)
    (hdiff : diffSkips env (stripB cur) = false)
    (hcreate : env.createResult (stripB cur) = some num) :
    (backport env pr (cur :: remaining) commits true).1 = [num]
    ∧ (backport env pr (cur :: remaining) commits true).2.createdPRs = [num]
    ∧ (backport env pr (cur :: remaining) commits true).2.materializations
        = [(stripB cur, commits)]
    ∧ (backport env pr (cur :: remaining) commits true).2.labelsAdded
        = remaining.map (fun l => (num, l)) := by
  have hc := cbb_success env pr (stripB cur) commits num hdiff hcreate
  cases remaining with
  | nil =>
      simp [backport, hc, hdraft, waterfallExtras, createdEffects, effMatz,
        Effects.empty]
  | cons r rs =>
      simp [backport, hc, hdraft, waterfallExtras, createdEffects, effMatz,
        Effects.empty]

lemma parallel_matz (env : GitEnv) (pr : PRData) (commits : List String)
    (labels : List String) :
    (backportParallel env pr commits labels).2.materializations
      = labels.map (fun l => (stripB l, commits)) := by
  induction labels with
  | nil => rfl
  | cons l ls ih =>
      cases h : (create_backport_branch env pr (stripB l) commits).1 <;>
        simp [backportParallel, h, cbb_matz, ih]

lemma parallel_created_len (env : GitEnv) (pr : PRData) (commits : List String)
    (labels : List String)
    (h : ∀ l ∈ labels,
      diffSkips env (stripB l) = false ∧ (env.createResult (stripB l)).isSome) :
    (backportParallel env pr commits labels).1.length = labels.length
    ∧ (backportParallel env pr commits labels).2.createdPRs.length
        = labels.length := by
  induction labels with
  | nil => exact ⟨rfl, rfl⟩
  | cons l ls ih =>
      obtain ⟨h1, h2⟩ := h l (List.mem_cons_self l ls)
      obtain ⟨num, hnum⟩ := Option.isSome_iff_exists.mp h2
      have hc := cbb_success env pr (stripB l) commits num h1 hnum
      have iht := ih (fun x hx => h x (List.mem_cons_of_mem l hx))
      constructor
      · simp [backportParallel, hc, iht.1]
      · simp [backportParallel, hc, effMatz, createdEffects, Effects.empty,
          iht.2]

/-- Claim C4: under the parallel strategy, one branch is materialized per
version label, each and every one from the same commit list; and when every
creation step succeeds, exactly one backport PR is created per label. -/
theorem C4_theorem (env : GitEnv) (pr : PRData) (commits : List String)
    (labels : List String)
    (h : ∀ l ∈ labels,
      diffSkips env (stripB l) = false ∧ (env.createResult (stripB l)).isSome) :
    (backport env pr labels commits false).1.length = labels.length
    ∧ (backport env pr labels commits false).2.createdPRs.length = labels.length
    ∧ (backport env pr labels commits false).2.materializations
        = labels.map (fun l => (stripB l, commits))
    ∧ ∀ m ∈ (backport env pr labels commits false).2.materializations,
        m.2 = commits := by
  cases labels with
  | nil => simp [backport, Effects.empty]
  | cons l ls =>
      have hp := parallel_created_len env pr commits (l :: ls) h
      have hm := parallel_matz env pr commits (l :: ls)
      have hb : backport env pr (l :: ls) commits false
          = backportParallel env pr commits (l :: ls) := by simp [backport]
      refine ⟨by rw [hb]; exact hp.1, by rw [hb]; exact hp.2, by rw [hb]; exact hm, ?_⟩
      rw [hb, hm]
      intro m hmem
      rcases List.mem_map.mp hmem with ⟨x, _, rfl⟩
      rfl

/-- Claim C9: under the waterfall strategy, when the creation step for the
highest-ranked version yields no PR (empty diff, duplicate, or API failure),
nothing is labeled, no pending-versions comment is posted, no PR is recorded,
and the function returns the empty list — the lower labels are dropped for
this run. -/
theorem C9_theorem (env : GitEnv) (pr : PRData) (cur : String)
    (remaining : List String) (commits : List String)
    (h : (create_backport_branch env pr (stripB cur) commits).1 = none) :
    (backport env pr (cur :: remaining) commits true).1 = []
    ∧ (backport env pr (cur :: remaining) commits true).2.createdPRs = []
    ∧ (backport env pr (cur :: remaining) commits true).2.labelsAdded = []
    ∧ (backport env pr (cur :: remaining) commits true).2.comments = [] := by
  have hc := cbb_fst_none_eff env pr (stripB cur) commits h
  simp [backport, hc, effMatz, Effects.empty]

/-! ## Lemmas about the cherry-pick loop -/

lemma applyPicks_noabort_attempted (commits : List String)
    (outs : List PickOutcome)
    (hnoab : PickOutcome.conflict ContOutcome.otherError ∉ outs) :
    (applyPicks commits outs).attempted = commits := by
  induction commits generalizing outs with
  | nil => rfl
  | cons c cs ih =>
    cases outs with
    | nil => simp [applyPicks, ih [] (by simp)]
    | cons o os =>
      have ho : o ≠ PickOutcome.conflict ContOutcome.otherError :=
        fun he => hnoab (he ▸ List.mem_cons_self o os)
      have hos : PickOutcome.conflict ContOutcome.otherError ∉ os :=
        fun hmem => hnoab (List.mem_cons_of_mem o hmem)
      cases o with
      | ok => simp [applyPicks, ih os hos]
      | conflict ct =>
        cases ct with
        | ok => simp [applyPicks, ih os hos]
        | nothingToCommit => simp [applyPicks, ih os hos]
        | otherError => exact absurd rfl ho

lemma applyPicks_abort (cs1 : List String) (c : String) (cs2 : List String)
    (os1 os2 : List PickOutcome)
    (hlen : cs1.length = os1.length)
    (hnoab : PickOutcome.conflict ContOutcome.otherError ∉ os1) :
    (applyPicks (cs1 ++ c :: cs2)
        (os1 ++ PickOutcome.conflict ContOutcome.otherError :: os2)).attempted
      = cs1 ++ [c]
    ∧ (∀ x ∈ (applyPicks (cs1 ++ c :: cs2)
        (os1 ++ PickOutcome.conflict ContOutcome.otherError :: os2)).applied,
        x ∈ cs1)
    ∧ (applyPicks (cs1 ++ c :: cs2)
        (os1 ++ PickOutcome.conflict ContOutcome.otherError :: os2)).conflicted
      = true := by
  induction cs1 generalizing os1 with
  | nil =>
    cases os1 with
    | nil => simp [applyPicks]
    | cons o os => simp at hlen
  | cons a as ih =>
    cases os1 with
    | nil => simp at hlen
    | cons o os =>
      have ho : o ≠ PickOutcome.conflict ContOutcome.otherError :=
        fun he => hnoab (he ▸ List.mem_cons_self o os)
      have hos : PickOutcome.conflict ContOutcome.otherError ∉ os :=
        fun hmem => hnoab (List.mem_cons_of_mem o hmem)
      have hlen2 : as.length = os.length := by simpa using hlen
      have iht := ih os hlen2 hos
      cases o with
      | ok =>
        refine ⟨by simp [applyPicks, iht.1], ?_, by simp [applyPicks, iht.2.2]⟩
        intro x hx
        simp only [applyPicks, List.cons_append] at hx
        rcases List.mem_cons.mp hx with rfl | hx2
        · exact List.mem_cons_self x as
        · exact List.mem_cons_of_mem a (iht.2.1 x hx2)
      | conflict ct =>
        cases ct with
        | ok =>
          refine ⟨by simp [applyPicks, iht.1], ?_, by simp [applyPicks]⟩
          intro x hx
          simp only [applyPicks, List.cons_append] at hx
          rcases List.mem_cons.mp hx with rfl | hx2
          · exact List.mem_cons_self x as
          · exact List.mem_cons_of_mem a (iht.2.1 x hx2)
        | nothingToCommit =>
          refine ⟨by simp [applyPicks, iht.1], ?_, by simp [applyPicks]⟩
          intro x hx
          simp only [applyPicks, List.cons_append] at hx
          exact List.mem_cons_of_mem a (iht.2.1 x hx)
        | otherError => exact absurd rfl ho

/-- Claim C6 (counterexample): with a commit set of two commits where the
first cherry-pick conflicts and its `--continue` fails with an error other
than "nothing to commit", the loop aborts and the second commit is never
processed — so a conflict can abort processing of the remaining commits,
contradicting the claim. -/
theorem C6_counterexample :
    envC6.pickResults "2025.1"
        = [PickOutcome.conflict ContOutcome.otherError, PickOutcome.ok]
    ∧ (setup_git_repo envC6 "2025.1" ["c1", "c2"]).isDraft = true
    ∧ (setup_git_repo envC6 "2025.1" ["c1", "c2"]).attempted = ["c1"]
    ∧ "c2" ∉ (setup_git_repo envC6 "2025.1" ["c1", "c2"]).attempted := by
  decide

/-- Claim C6 (amended): when no conflicting commit makes `cherry-pick
--continue` fail with an error other than "nothing to commit" (no abort), a
conflict never stops the loop: every commit of the set is processed, the
result is marked draft, and — when the diff is non-empty and PR creation
succeeds — the created PR carries the `conflicts` label and a comment tagging
the original author; in a parallel batch every version is materialized
regardless of conflicts.  When a continue does fail otherwise, the remaining
commits are skipped (claim C10). -/
theorem C6_theorem (env : GitEnv) (pr : PRData) (version : String)
    (commits : List String) (num : Nat)
    (hclone : env.cloneFails version = false)
    (hnoab : PickOutcome.conflict ContOutcome.otherError ∉ env.pickResults version)
    (hdraft : (setup_git_repo env version commits).isDraft = true)
    (hdiff : diffSkips env version = false)
    (hcreate : env.createResult version = some num) :
    (setup_git_repo env version commits).attempted = commits
    ∧ (create_backport_branch env pr version commits).1 = some num
    ∧ (num, "conflicts")
        ∈ (create_backport_branch env pr version commits).2.labelsAdded
    ∧ (num, conflictComment pr.author)
        ∈ (create_backport_branch env pr version commits).2.comments
    ∧ ∀ labels : List String,
        (backport env pr labels commits false).2.materializations
          = labels.map (fun l => (stripB l, commits)) := by
  have hc := cbb_success env pr version commits num hdiff hcreate
  refine ⟨?_, ?_, ?_, ?_, ?_⟩
  · simp [setup_git_repo, hclone,
      applyPicks_noabort_attempted commits _ hnoab]
  · simp [hc]
  · simp [hc, createdEffects, effMatz, Effects.empty, hdraft]
  · simp [hc, createdEffects, effMatz, Effects.empty, hdraft]
  · intro labels
    cases labels with
    | nil => simp [backport, Effects.empty]
    | cons l ls =>
        have hb : backport env pr (l :: ls) commits false
            = backportParallel env pr commits (l :: ls) := by simp [backport]
        rw [hb]
        exact parallel_matz env pr commits (l :: ls)

/-- Claim C10: when a conflicting commit makes `cherry-pick --continue` fail
with an error other than "nothing to commit", the cherry-pick is aborted and
the loop stops at that commit: only the earlier commits were reached, the
branch contains only commits applied before the abort, it is still pushed to
the fork, and — the diff being non-empty and creation succeeding — a draft
pull request carrying the `conflicts` label is opened. -/
theorem C10_theorem (env : GitEnv) (pr : PRData) (version : String)
    (cs1 : List String) (c : String) (cs2 : List String)
    (os1 os2 : List PickOutcome) (num : Nat) (d : String)
    (hlen : cs1.length = os1.length)
    (hnoab : PickOutcome.conflict ContOutcome.otherError ∉ os1)
    (hpick : env.pickResults version
        = os1 ++ PickOutcome.conflict ContOutcome.otherError :: os2)
    (hclone : env.cloneFails version = false)
    (hd : env.diffResult version = some d)
    (hne : trimIsEmpty d = false)
    (hcreate : env.createResult version = some num) :
    (setup_git_repo env version (cs1 ++ c :: cs2)).attempted = cs1 ++ [c]
    ∧ (∀ x ∈ (setup_git_repo env version (cs1 ++ c :: cs2)).applied, x ∈ cs1)
    ∧ (setup_git_repo env version (cs1 ++ c :: cs2)).isDraft = true
    ∧ (setup_git_repo env version (cs1 ++ c :: cs2)).pushed = true
    ∧ (create_backport_branch env pr version (cs1 ++ c :: cs2)).1 = some num
    ∧ (num, "conflicts")
        ∈ (create_backport_branch env pr version (cs1 ++ c :: cs2)).2.labelsAdded := by
  have hap := applyPicks_abort cs1 c cs2 os1 os2 hlen hnoab
  have hdiff : diffSkips env version = false := by simp [diffSkips, hd, hne]
  have hdraft : (setup_git_repo env version (cs1 ++ c :: cs2)).isDraft = true := by
    simp [setup_git_repo, hclone, hpick, hap.2.2]
  have hc := cbb_success env pr version (cs1 ++ c :: cs2) num hdiff hcreate
  refine ⟨?_, ?_, hdraft, ?_, ?_, ?_⟩
  · simp [setup_git_repo, hclone, hpick, hap.1]
  · intro x hx
    apply hap.2.1
    simpa [setup_git_repo, hclone, hpick] using hx
  · simp [setup_git_repo, hclone]
  · simp [hc]
  · simp [hc, createdEffects, effMatz, Effects.empty, hdraft]

/-! ## Labels are only ever added to newly created pull requests -/

/-- Every label addition in an effect trace targets a pull request created in
that same trace. -/
def labelsTargetCreated (e : Effects) : Prop :=
  ∀ p ∈ e.labelsAdded, p.1 ∈ e.createdPRs

lemma ltc_empty : labelsTargetCreated Effects.empty := by
  intro p hp
  simp [Effects.empty] at hp

lemma ltc_app {ea eb : Effects} (ha : labelsTargetCreated ea)
    (hb : labelsTargetCreated eb) : labelsTargetCreated (ea.app eb) := by
  intro p hp
  rcases List.mem_append.mp hp with h | h
  · exact List.mem_append.mpr (Or.inl (ha p h))
  · exact List.mem_append.mpr (Or.inr (hb p h))

lemma ltc_cbb (env : GitEnv) (pr : PRData) (version : String)
    (commits : List String) :
    labelsTargetCreated (create_backport_branch env pr version commits).2 := by
  by_cases hd : diffSkips env version = true
  · intro p hp
    simp [create_backport_branch, hd, effMatz, Effects.empty] at hp
  · have hd2 := Bool.not_eq_true _ ▸ hd
    cases hc : env.createResult version with
    | none =>
        intro p hp
        simp [create_backport_branch, hd2, hc, effMatz, Effects.empty] at hp
    | some num =>
        rw [cbb_success env pr version commits num hd2 hc]
        intro p hp
        cases hdr : (setup_git_repo env version commits).isDraft with
        | false => simp [createdEffects, effMatz, Effects.empty, hdr] at hp
        | true =>
            simp [createdEffects, effMatz, Effects.empty, hdr] at hp ⊢
            simp [hp]

lemma ltc_parallel (env : GitEnv) (pr : PRData) (commits : List String)
    (labels : List String) :
    labelsTargetCreated (backportParallel env pr commits labels).2 := by
  induction labels with
  | nil => exact ltc_empty
  | cons l ls ih =>
      cases h : (create_backport_branch env pr (stripB l) commits).1 with
      | none =>
          have : (backportParallel env pr commits (l :: ls)).2
              = ((create_backport_branch env pr (stripB l) commits).2).app
                  (backportParallel env pr commits ls).2 := by
            simp [backportParallel, h]
          rw [this]
          exact ltc_app (ltc_cbb env pr (stripB l) commits) ih
      | some n =>
          have : (backportParallel env pr commits (l :: ls)).2
              = ((create_backport_branch env pr (stripB l) commits).2).app
                  (backportParallel env pr commits ls).2 := by
            simp [backportParallel, h]
          rw [this]
          exact ltc_app (ltc_cbb env pr (stripB l) commits) ih

lemma ltc_backport (env : GitEnv) (pr : PRData) (sortedLabels : List String)
    (commits : List String) (useWaterfall : Bool) :
    labelsTargetCreated (backport env pr sortedLabels commits useWaterfall).2 := by
  cases sortedLabels with
  | nil => exact ltc_empty
  | cons cur remaining =>
      cases useWaterfall with
      | false =>
          have hb : backport env pr (cur :: remaining) commits false
              = backportParallel env pr commits (cur :: remaining) := by
            simp [backport]
          rw [hb]
          exact ltc_parallel env pr commits (cur :: remaining)
      | true =>
          rcases hE : create_backport_branch env pr (stripB cur) commits with
            ⟨fst, eff⟩
          have heff : labelsTargetCreated eff := by
            have := ltc_cbb env pr (stripB cur) commits
            rw [hE] at this
            exact this
          cases fst with
          | none =>
              have hb : backport env pr (cur :: remaining) commits true
                  = ([], eff) := by simp [backport, hE]
              rw [hb]
              exact heff
          | some num =>
              have hb : backport env pr (cur :: remaining) commits true
                  = ([num], eff.app (waterfallExtras num pr.author remaining)) := by
                simp [backport, hE]
              have hnum : num ∈ eff.createdPRs := by
                have := cbb_some_mem env pr (stripB cur) commits num
                  (by rw [hE])
                rw [hE] at this
                exact this
              rw [hb]
              intro p hp
              rcases List.mem_append.mp hp with h | h
              · exact List.mem_append.mpr (Or.inl (heff p h))
              · have hp1 : p.1 = num := by
                  by_cases hrem : remaining.isEmpty = true
                  · simp [waterfallExtras, hrem, Effects.empty] at h
                  · simp only [waterfallExtras, hrem, if_false,
                      Bool.false_eq_true, ite_false] at h
                    rcases List.mem_map.mp h with ⟨x, _, rfl⟩
                    rfl
                rw [hp1]
                exact List.mem_append.mpr (Or.inl hnum)

lemma ltc_process (env : GitEnv) (getPull : Nat → Option PRData)
    (pr : PRData) (bls : List String) :
    labelsTargetCreated (processMergedBackportPR env getPull pr bls) := by
  unfold processMergedBackportPR
  split
  · split
    · exact ltc_empty
    · split
      · split
        · exact ltc_backport _ _ _ _ _
        · exact ltc_backport _ _ _ _ _
      · exact ltc_backport _ _ _ _ _
  · exact ltc_empty

lemma ltc_processAll (env : GitEnv) (getPull : Nat → Option PRData)
    (found : List (PRData × List String)) :
    labelsTargetCreated (processAll env getPull found) := by
  induction found with
  | nil => exact ltc_empty
  | cons pb rest ih =>
      exact ltc_app (ltc_process env getPull pb.1 pb.2) ih

/-- Claim C1 (counterexample): merging the backport PR `[Backport 2025.3]`
whose body contains `Parent PR: #42` and which still carries labels for
2025.2 and 2025.1 makes the next run continue the cascade (creating backport
PR 100), but it adds no label whatsoever to PR 42 — in particular not
`backport/2025.2-done` (no `-done` marker exists anywhere in the code). -/
theorem C1_counterexample :
    (42, "backport/2025.2-done") ∉ (resumeRun envC1 [prBackport] getPullPlain).labelsAdded
    ∧ (resumeRun envC1 [prBackport] getPullPlain).labelsAdded.filter
        (fun p => p.1 = 42) = []
    ∧ (resumeRun envC1 [prBackport] getPullPlain).createdPRs = [100] := by
  decide

/-- Claim C1 (amended): a resumption run adds no completion label to the
parent PR — there is no `backport/<version>-done` marker in the code at all;
every label the run adds (remaining backport labels, `conflicts`) is attached
to a pull request newly created by that same run. -/
theorem C1_theorem (env : GitEnv) (prs : List PRData)
    (getPull : Nat → Option PRData) (p : Nat × String)
    (hp : p ∈ (resumeRun env prs getPull).labelsAdded) :
    p.1 ∈ (resumeRun env prs getPull).createdPRs :=
  ltc_processAll env getPull (find_merged_prs_with_labels prs) p hp

/-- Witness for C1: in the concrete scenario the run attaches the remaining
label `backport/2025.1` to the newly created PR 100, and indeed 100 is among
the PRs created by the run. -/
theorem C1_witness :
    (100, "backport/2025.1") ∈ (resumeRun envC1 [prBackport] getPullPlain).labelsAdded
    ∧ 100 ∈ (resumeRun envC1 [prBackport] getPullPlain).createdPRs :=
  ⟨by decide,
   C1_theorem envC1 [prBackport] getPullPlain (100, "backport/2025.1") (by decide)⟩

/-- Claim C2 (counterexample): the claim requires force-waterfall to beat
`backport_all` on every code path.  On the resumption path the force flags
are not consulted at all: with the originating PR labeled `backport_all` the
code picks parallel (`resumeUseWaterfall = false`) even though the priority
rule with a force-waterfall flag mandates waterfall; concretely, the
resumption run fans out and creates two PRs at once instead of one. -/
theorem C2_counterexample :
    resumeUseWaterfall ["backport_all", "promoted-to-master"] = false
    ∧ specUseWaterfall false true true = true
    ∧ (processMergedBackportPR envC2 getPullAll prBackport
        (backportLabelsOf prBackport)).createdPRs = [201, 202] := by
  decide

/-- Claim C2 (amended): on the direct dispatch path the priority order holds
exactly — force-parallel wins, else force-waterfall, else `backport_all`
selects parallel, else waterfall.  On the cascade-resumption path the force
flags are ignored: the strategy there is the rule with neither flag given,
i.e. parallel exactly when the originating PR carries `backport_all`. -/
theorem C2_theorem (p w : Bool) (labels : List String) :
    mainUseWaterfall p w labels
        = specUseWaterfall p w (labels.contains "backport_all")
    ∧ resumeUseWaterfall labels
        = specUseWaterfall false false (labels.contains "backport_all") := by
  constructor
  · cases p <;> cases w <;> cases hc : labels.contains "backport_all" <;>
      simp only [mainUseWaterfall, specUseWaterfall, hc] <;> rfl
  · cases hc : labels.contains "backport_all" <;>
      simp only [resumeUseWaterfall, specUseWaterfall, hc] <;> rfl

/-- Witness for C3: three sorted labels, creation succeeding for 2025.3:
exactly one PR (number 300) is created for the top version and exactly the
two lower labels are attached to it. -/
theorem C3_witness :
    (backport envC3 prPlain
        ["backport/2025.3", "backport/2025.2", "backport/2025.1"] ["c1"] true).1
      = [300]
    ∧ (backport envC3 prPlain
        ["backport/2025.3", "backport/2025.2", "backport/2025.1"] ["c1"] true).2.createdPRs
      = [300]
    ∧ (backport envC3 prPlain
        ["backport/2025.3", "backport/2025.2", "backport/2025.1"] ["c1"] true).2.materializations
      = [(stripB "backport/2025.3", ["c1"])]
    ∧ (backport envC3 prPlain
        ["backport/2025.3", "backport/2025.2", "backport/2025.1"] ["c1"] true).2.labelsAdded
      = ["backport/2025.2", "backport/2025.1"].map (fun l => (300, l)) :=
  C3_theorem envC3 prPlain "backport/2025.3"
    ["backport/2025.2", "backport/2025.1"] ["c1"] 300
    (by decide) (by decide) (by decide)

/-- Witness for C4: three labels under the parallel strategy with all
creations succeeding: three PRs, three materializations, all from the same
commit list. -/
theorem C4_witness :
    (backport envC4 prPlain
        ["backport/2025.3", "backport/2025.2", "backport/2025.1"] ["c1"] false).1.length
      = (["backport/2025.3", "backport/2025.2", "backport/2025.1"] : List String).length
    ∧ (backport envC4 prPlain
        ["backport/2025.3", "backport/2025.2", "backport/2025.1"] ["c1"] false).2.createdPRs.length
      = (["backport/2025.3", "backport/2025.2", "backport/2025.1"] : List String).length
    ∧ (backport envC4 prPlain
        ["backport/2025.3", "backport/2025.2", "backport/2025.1"] ["c1"] false).2.materializations
      = ["backport/2025.3", "backport/2025.2", "backport/2025.1"].map
          (fun l => (stripB l, ["c1"]))
    ∧ ∀ m ∈ (backport envC4 prPlain
        ["backport/2025.3", "backport/2025.2", "backport/2025.1"] ["c1"] false).2.materializations,
        m.2 = ["c1"] :=
  C4_theorem envC4 prPlain ["c1"]
    ["backport/2025.3", "backport/2025.2", "backport/2025.1"] (by decide)

/-- Witness for C6: one conflicting commit whose continue succeeds: the whole
set is processed, PR 600 is created with the `conflicts` label and the
author-tagging comment, and a parallel batch materializes every version. -/
theorem C6_witness :
    (setup_git_repo envC6w "2025.1" ["c1"]).attempted = ["c1"]
    ∧ (create_backport_branch envC6w prPlain "2025.1" ["c1"]).1 = some 600
    ∧ (600, "conflicts")
        ∈ (create_backport_branch envC6w prPlain "2025.1" ["c1"]).2.labelsAdded
    ∧ (600, conflictComment prPlain.author)
        ∈ (create_backport_branch envC6w prPlain "2025.1" ["c1"]).2.comments
    ∧ ∀ labels : List String,
        (backport envC6w prPlain labels ["c1"] false).2.materializations
          = labels.map (fun l => (stripB l, ["c1"])) :=
  C6_theorem envC6w prPlain "2025.1" ["c1"] 600
    (by decide) (by decide) (by decide) (by decide) (by decide)

/-- Witness for C7: the diff oracle reports only whitespace, so no pull
request is opened. -/
theorem C7_witness :
    (create_backport_branch envC7 prPlain "2025.1" ["c1"]).1 = none
    ∧ (create_backport_branch envC7 prPlain "2025.1" ["c1"]).2.createdPRs = [] :=
  C7_theorem envC7 prPlain "2025.1" ["c1"] "  \n" (by decide) (by decide)

/-- Witness for C9: PR creation fails for the top version, so the waterfall
run creates nothing, labels nothing and comments nothing. -/
theorem C9_witness :
    (backport envC9 prPlain
        ["backport/2025.2", "backport/2025.1"] ["c1"] true).1 = []
    ∧ (backport envC9 prPlain
        ["backport/2025.2", "backport/2025.1"] ["c1"] true).2.createdPRs = []
    ∧ (backport envC9 prPlain
        ["backport/2025.2", "backport/2025.1"] ["c1"] true).2.labelsAdded = []
    ∧ (backport envC9 prPlain
        ["backport/2025.2", "backport/2025.1"] ["c1"] true).2.comments = [] :=
  C9_theorem envC9 prPlain "backport/2025.2" ["backport/2025.1"] ["c1"]
    (by decide)

/-- Witness for C10: commits `[a, b, z]` where the pick of `b` conflicts and
aborts: only `a` and `b` are reached, the branch holds only `a`, it is still
pushed, and draft PR 700 with the `conflicts` label is opened. -/
theorem C10_witness :
    (setup_git_repo envC10 "2025.1" (["a"] ++ "b" :: ["z"])).attempted
      = ["a"] ++ ["b"]
    ∧ (∀ x ∈ (setup_git_repo envC10 "2025.1" (["a"] ++ "b" :: ["z"])).applied,
        x ∈ ["a"])
    ∧ (setup_git_repo envC10 "2025.1" (["a"] ++ "b" :: ["z"])).isDraft = true
    ∧ (setup_git_repo envC10 "2025.1" (["a"] ++ "b" :: ["z"])).pushed = true
    ∧ (create_backport_branch envC10 prPlain "2025.1" (["a"] ++ "b" :: ["z"])).1
      = some 700
    ∧ (700, "conflicts")
        ∈ (create_backport_branch envC10 prPlain "2025.1" (["a"] ++ "b" :: ["z"])).2.labelsAdded :=
  C10_theorem envC10 prPlain "2025.1" ["a"] "b" ["z"]
    [PickOutcome.ok] [] 700 "file.txt"
    (by decide) (by decide) (by decide) (by decide) (by decide) (by decide)
    (by decide)

end AutoBackport
